import Mathlib

/-!
Verification development for the id3 decision-tree split-criterion core
(`utils.h` and `entries.h`).

Modelling conventions:
- C++ `double` values are modelled as real numbers (`ℝ`).  Where the C++
  computation can produce a non-finite double (NaN or ±infinity) — e.g.
  `0 * log2(0)` or a division by a zero total — the value is modelled as
  `Option ℝ`, with `none` standing for "not a finite real".
- C++ `int` is modelled as `ℤ` (`Count`), and thrown exceptions as the
  `Except` monad with an explicit error type.
- `Entries` (entries.h) only declares its member functions in the inspected
  sources; the bodies live in a translation unit that is not present.  Those
  operations are therefore modelled from the spec, and each such definition
  carries a doc comment saying so.
-/

namespace Id3

/-- The two exception classes of utils.h, as a tagged error type.
`invalidSumOfProbabilities` is the spec's `InvalidProbabilitySum`,
`invalidNumberOfEntries` is the spec's `InvalidEntryCount`. -/
inductive Id3Error where
  | invalidSumOfProbabilities
  | invalidNumberOfEntries
  deriving DecidableEq, Repr

/-- `using Count = int;` from utils.h. -/
abbrev Count := Int

/-- The first loop of `calculateEntropy`: `sumOfProbabilites += probability`
starting from `double sumOfProbabilites = 0`. -/
def sumOfProbabilities (probabilities : List ℝ) : ℝ :=
  probabilities.foldl (· + ·) 0

/-- One term `probability * log2(probability)` of the entropy loop, as the
IEEE double computation produces it: a finite real exactly when the
probability is positive.  For `p = 0` the C++ code computes `0 * log2(0) =
0 * (-inf) = NaN`, and for `p < 0` it computes `p * NaN = NaN`; both are
modelled as `none`. -/
noncomputable def entropyTerm (p : ℝ) : Option ℝ :=
  if 0 < p then some (p * Real.logb 2 p) else none

/-- The second loop of `calculateEntropy`: `entropy -= probability *
log2(probability)` starting from `Entropy entropy = 0`.  A `none` (NaN)
accumulator or term makes the whole accumulation `none`, as NaN propagates
through IEEE subtraction. -/
noncomputable def entropyAccum (probabilities : List ℝ) (acc : Option ℝ) : Option ℝ :=
  match probabilities with
  | [] => acc
  | p :: rest =>
      entropyAccum rest
        (match acc, entropyTerm p with
         | some a, some t => some (a - t)
         | _, _ => none)

/-- `calculateEntropy` from utils.h: sum the probabilities, throw
`InvalidSumOfProbabilitiesException` when the sum is not exactly 1
(the source compares with `!=`, no tolerance), otherwise run the
`entropy -= p * log2(p)` loop. -/
noncomputable def calculateEntropy (probabilities : List ℝ) :
    Except Id3Error (Option ℝ) :=
  if sumOfProbabilities probabilities ≠ 1 then
    Except.error Id3Error.invalidSumOfProbabilities
  else
    Except.ok (entropyAccum probabilities (some 0))

/-- The loop of `calculateAverageInformationEntropy` from utils.h: for each
`(count, entropy)` pair, throw `InvalidNumberOfEntriesException` when
`count > totalNumberOfEntries`, otherwise accumulate
`(double(count) / totalNumberOfEntries) * entropy`.  When the total is 0 the
C++ division yields a non-finite double (±inf or NaN), which then contaminates
the accumulator; this is modelled by the accumulator becoming `none`. -/
noncomputable def avgLoop (total : ℤ) (pairs : List (Count × ℝ)) (acc : Option ℝ) :
    Except Id3Error (Option ℝ) :=
  match pairs with
  | [] => Except.ok acc
  | (c, e) :: rest =>
      if total < c then Except.error Id3Error.invalidNumberOfEntries
      else
        avgLoop total rest
          (if total = 0 then none
           else acc.map (fun a => a + ((c : ℝ) / (total : ℝ)) * e))

/-- `calculateAverageInformationEntropy` from utils.h: the accumulator starts
at `Entropy averageInformationEntropy = 0` and the loop above runs over the
pair list. -/
noncomputable def calculateAverageInformationEntropy (totalNumberOfEntries : ℤ)
    (attributeAndItsEntropyPair : List (Count × ℝ)) : Except Id3Error (Option ℝ) :=
  avgLoop totalNumberOfEntries attributeAndItsEntropyPair (some 0)

/-- The weighted sum `Σ (count_i / totalCount) * entropy_i` that
`calculateAverageInformationEntropy` computes on accepted input. -/
noncomputable def weightedSum (total : ℤ) (pairs : List (Count × ℝ)) : ℝ :=
  (pairs.map (fun pr => ((pr.1 : ℝ) / (total : ℝ)) * pr.2)).sum

end Id3

namespace Id3

/-- A dataset row, csv style: field 0 is the class label, fields 1.. are the
attribute values (entries.h stores `vector<vector<string>> data`). -/
abbrev Row := List String

/-- Modelled from the spec: the number of attribute columns of a dataset —
every row has the class label at index 0 followed by the attributes, and all
rows have identical length. -/
def numAttributes (data : List Row) : ℕ :=
  (data.headD []).length - 1

/-- Modelled from the spec: the class label of a row is field 0. -/
def classOf (row : Row) : String :=
  row.getD 0 ""

/-- Modelled from the spec: `AttributeId` is a zero-based index over the
attribute columns only, so attribute `i` lives at row field `i + 1`. -/
def attributeValue (row : Row) (attributeId : ℕ) : String :=
  row.getD (attributeId + 1) ""

/-- Modelled from the spec: `Entries::countEntriesByAttribute` — the number
of rows whose value at the given attribute equals the given value (the
implementation file of entries.h is not part of the inspected sources). -/
def countEntriesByAttribute (data : List Row) (attributeId : ℕ) (v : String) : ℕ :=
  (data.filter (fun row => attributeValue row attributeId == v)).length

/-- Modelled from the spec: `Entries::getAllPossibleAttributeValues` — the
set of distinct values observed in the attribute's column. -/
def getAllPossibleAttributeValues (data : List Row) (attributeId : ℕ) : Finset String :=
  (data.map (fun row => attributeValue row attributeId)).toFinset

/-- Modelled from the spec: Shannon entropy of a probability distribution,
with the convention `0 * log2 0 = 0` (zero-probability terms are skipped). -/
noncomputable def entropyOfDist (dist : List ℝ) : ℝ :=
  (dist.map (fun p => if p = 0 then 0 else -(p * Real.logb 2 p))).sum

/-- Modelled from the spec: the class distribution of a set of rows — one
probability `count(c) / #rows` per distinct class label `c`. -/
noncomputable def classProbabilities (rows : List Row) : List ℝ :=
  ((rows.map classOf).dedup).map
    (fun c => (((rows.map classOf).count c : ℕ) : ℝ) / (rows.length : ℝ))

/-- Modelled from the spec: `E(S)`, the entropy of the dataset's overall
class distribution. -/
noncomputable def datasetEntropy (data : List Row) : ℝ :=
  entropyOfDist (classProbabilities data)

/-- Modelled from the spec: `Entries::calculateAttributeEntropy` — `E(A=v)`,
the entropy of the class distribution restricted to the rows where attribute
`A` has value `v`. -/
noncomputable def calculateAttributeEntropy (data : List Row) (attributeId : ℕ)
    (v : String) : ℝ :=
  datasetEntropy (data.filter (fun row => attributeValue row attributeId == v))

/-- Modelled from the spec: `Entries::calculateAttributeAverageInformationEntropy`
— the conditional entropy `I(A) = Σ_v (count(v)/total) * E(A=v)` over the
distinct values `v` of attribute `A`. -/
noncomputable def calculateAttributeAverageInformationEntropy
    (data : List Row) (attributeId : ℕ) : ℝ :=
  ∑ v in getAllPossibleAttributeValues data attributeId,
    ((countEntriesByAttribute data attributeId v : ℝ) / (data.length : ℝ)) *
      calculateAttributeEntropy data attributeId v

/-- Modelled from the spec: `InformationGain(A) = E(S) - I(A)`. -/
noncomputable def informationGain (data : List Row) (attributeId : ℕ) : ℝ :=
  datasetEntropy data - calculateAttributeAverageInformationEntropy data attributeId

/-- Modelled from the spec: `Entries::getAttributeWithHighestInformationGain`
— the AttributeId maximizing the information gain, with the lowest id among
maximal-gain candidates (`List.argmax` keeps the first maximum of the list,
and the candidate ids `0, 1, ...` are scanned in increasing order). -/
noncomputable def getAttributeWithHighestInformationGain (data : List Row) : ℕ :=
  ((List.range (numAttributes data)).argmax (informationGain data)).getD 0

end Id3

namespace Id3

/-- C10: for the empty list of (Count, Entropy) pairs,
`calculateAverageInformationEntropy` returns 0 for every value of
`totalNumberOfEntries`, including 0, with no error and no division
(the loop body never executes). -/
theorem avg_entropy_empty_list (total : ℤ) :
    calculateAverageInformationEntropy total [] = Except.ok (some 0) := rfl

/-- Helper: the loop errors exactly when some pair's count exceeds the total,
for every starting accumulator. -/
theorem avgLoop_error_iff (total : ℤ) (pairs : List (Count × ℝ)) :
    ∀ acc, (avgLoop total pairs acc = Except.error Id3Error.invalidNumberOfEntries
      ↔ ∃ pr ∈ pairs, total < pr.1) := by
  induction pairs with
  | nil =>
      intro acc
      simp [avgLoop]
  | cons hd tl ih =>
      intro acc
      obtain ⟨c, e⟩ := hd
      by_cases hc : total < c
      · simp [avgLoop, hc]
      · simp only [avgLoop, if_neg hc, ih]
        constructor
        · rintro ⟨pr, hmem, hlt⟩
          exact ⟨pr, List.mem_cons_of_mem _ hmem, hlt⟩
        · rintro ⟨pr, hmem, hlt⟩
          rcases List.mem_cons.mp hmem with h | h
          · subst h
            exact absurd hlt hc
          · exact ⟨pr, h, hlt⟩

/-- C4: `calculateAverageInformationEntropy` fails with `InvalidEntryCount`
exactly when some individual count in the list exceeds `totalNumberOfEntries`. -/
theorem avg_entropy_error_iff_count_exceeds_total (total : ℤ) (pairs : List (Count × ℝ)) :
    calculateAverageInformationEntropy total pairs
        = Except.error Id3Error.invalidNumberOfEntries
      ↔ ∃ pr ∈ pairs, total < pr.1 :=
  avgLoop_error_iff total pairs (some 0)

/-- C4 witness: `calculateAverageInformationEntropy(10, [(11, 0.5)])` fails
with `InvalidEntryCount` since 11 > 10. -/
theorem avg_entropy_error_iff_count_exceeds_total_witness :
    calculateAverageInformationEntropy 10 [((11 : Count), (0.5 : ℝ))]
      = Except.error Id3Error.invalidNumberOfEntries :=
  (avg_entropy_error_iff_count_exceeds_total 10 [((11 : Count), (0.5 : ℝ))]).mpr
    ⟨(11, 0.5), by simp, by norm_num⟩

/-- Helper: when the total is nonzero and every count is within bounds, the
loop adds the weighted sum of the remaining pairs to the accumulator. -/
theorem avgLoop_ok (total : ℤ) (htot : total ≠ 0) (pairs : List (Count × ℝ))
    (hall : ∀ pr ∈ pairs, pr.1 ≤ total) :
    ∀ a : ℝ, avgLoop total pairs (some a) = Except.ok (some (a + weightedSum total pairs)) := by
  induction pairs with
  | nil =>
      intro a
      simp [avgLoop, weightedSum]
  | cons hd tl ih =>
      intro a
      obtain ⟨c, e⟩ := hd
      have hc : ¬ total < c := not_lt.mpr (hall (c, e) (List.mem_cons_self _ _))
      have htl : ∀ pr ∈ tl, pr.1 ≤ total :=
        fun pr hpr => hall pr (List.mem_cons_of_mem _ hpr)
      rw [avgLoop]
      simp only [if_neg hc, if_neg htot, Option.map_some']
      rw [ih htl]
      have : weightedSum total ((c, e) :: tl)
          = ((c : ℝ) / (total : ℝ)) * e + weightedSum total tl := by
        simp [weightedSum]
      rw [this]
      ring_nf

/-- Helper: when every count is within bounds the loop never raises an
error, whatever the total and the starting accumulator are. -/
theorem avgLoop_accepts (total : ℤ) (pairs : List (Count × ℝ))
    (hall : ∀ pr ∈ pairs, pr.1 ≤ total) :
    ∀ acc, ∃ v, avgLoop total pairs acc = Except.ok v := by
  induction pairs with
  | nil =>
      intro acc
      exact ⟨acc, rfl⟩
  | cons hd tl ih =>
      intro acc
      obtain ⟨c, e⟩ := hd
      have hc : ¬ total < c := not_lt.mpr (hall (c, e) (List.mem_cons_self _ _))
      have htl : ∀ pr ∈ tl, pr.1 ≤ total :=
        fun pr hpr => hall pr (List.mem_cons_of_mem _ hpr)
      rw [avgLoop]
      simp only [if_neg hc]
      exact ih htl _

/-- C6: for a positive total and counts all within bounds,
`calculateAverageInformationEntropy` returns exactly the weighted sum
`Σ (count_i / totalCount) * entropy_i` over the pairs. -/
theorem avg_entropy_weighted_sum (total : ℤ) (pairs : List (Count × ℝ))
    (htot : 0 < total) (hall : ∀ pr ∈ pairs, pr.1 ≤ total) :
    calculateAverageInformationEntropy total pairs
      = Except.ok (some (weightedSum total pairs)) := by
  have h := avgLoop_ok total (ne_of_gt htot) pairs hall 0
  simpa [calculateAverageInformationEntropy] using h

/-- C6 witness: total 2 with pairs [(1, 5), (2, 3)] is accepted and yields
(1/2)*5 + (2/2)*3 = 11/2. -/
theorem avg_entropy_weighted_sum_witness :
    (0 : ℤ) < 2 ∧ (∀ pr ∈ [((1 : Count), (5 : ℝ)), ((2 : Count), (3 : ℝ))], pr.1 ≤ (2 : ℤ)) ∧
      calculateAverageInformationEntropy 2 [((1 : Count), (5 : ℝ)), ((2 : Count), (3 : ℝ))]
        = Except.ok (some (weightedSum 2 [((1 : Count), (5 : ℝ)), ((2 : Count), (3 : ℝ))])) :=
  ⟨by norm_num, by simp, avg_entropy_weighted_sum 2 _ (by norm_num) (by simp)⟩

/-- C9: the bound check is strict — any list of pairs whose counts are at
most the total (equality and negative counts included) is accepted without
error, and when the total is nonzero the result is the weighted sum, so a
pair with count equal to the total contributes (count/total) * entropy. -/
theorem avg_entropy_strict_check (total : ℤ) (pairs : List (Count × ℝ))
    (hall : ∀ pr ∈ pairs, pr.1 ≤ total) :
    (∃ v, calculateAverageInformationEntropy total pairs = Except.ok v) ∧
      (total ≠ 0 →
        calculateAverageInformationEntropy total pairs
          = Except.ok (some (weightedSum total pairs))) := by
  constructor
  · exact avgLoop_accepts total pairs hall (some 0)
  · intro htot
    have h := avgLoop_ok total htot pairs hall 0
    simpa [calculateAverageInformationEntropy] using h

/-- C9 witness: total 10 with a pair whose count equals the total and a pair
with a negative count is accepted, and yields (10/10)*(1/2) + (-3/10)*1. -/
theorem avg_entropy_strict_check_witness :
    (∀ pr ∈ [((10 : Count), (1/2 : ℝ)), ((-3 : Count), (1 : ℝ))], pr.1 ≤ (10 : ℤ)) ∧
      (∃ v, calculateAverageInformationEntropy 10
          [((10 : Count), (1/2 : ℝ)), ((-3 : Count), (1 : ℝ))] = Except.ok v) ∧
      calculateAverageInformationEntropy 10
          [((10 : Count), (1/2 : ℝ)), ((-3 : Count), (1 : ℝ))]
        = Except.ok (some (weightedSum 10 [((10 : Count), (1/2 : ℝ)), ((-3 : Count), (1 : ℝ))])) :=
  ⟨by simp, (avg_entropy_strict_check 10 _ (by simp)).1,
    (avg_entropy_strict_check 10 _ (by simp)).2 (by norm_num)⟩

/-- Helper: `log2(1/2) = -1`. -/
theorem logb_two_half : Real.logb 2 (1/2 : ℝ) = -1 := by
  rw [one_div, Real.logb_inv, Real.logb_self_eq_one (by norm_num)]

/-- Helper: `log2(1/4) = -2`. -/
theorem logb_two_quarter : Real.logb 2 (1/4 : ℝ) = -2 := by
  have h : (1/4 : ℝ) = ((2 : ℝ) ^ (2 : ℕ))⁻¹ := by norm_num
  rw [h, Real.logb_inv, Real.logb_pow, Real.logb_self_eq_one (by norm_num)]
  norm_num

/-- C5: whenever the probability sum deviates from 1 beyond the 1e-9
tolerance, `calculateEntropy` fails with `InvalidProbabilitySum` (the source
rejects every sum different from 1, so in particular these). -/
theorem entropy_error_on_sum_deviation (probabilities : List ℝ)
    (h : |sumOfProbabilities probabilities - 1| > 1e-9) :
    calculateEntropy probabilities = Except.error Id3Error.invalidSumOfProbabilities := by
  have hne : sumOfProbabilities probabilities ≠ 1 := by
    intro heq
    rw [heq] at h
    norm_num at h
  simp [calculateEntropy, hne]

/-- C5 witness: `calculateEntropy([0.5, 0.49])` has probability sum 0.99,
deviating from 1 by 0.01 > 1e-9, and fails with `InvalidProbabilitySum`. -/
theorem entropy_error_on_sum_deviation_witness :
    |sumOfProbabilities [(0.5 : ℝ), 0.49] - 1| > 1e-9 ∧
      calculateEntropy [(0.5 : ℝ), 0.49]
        = Except.error Id3Error.invalidSumOfProbabilities := by
  have hs : sumOfProbabilities [(0.5 : ℝ), 0.49] = 0.99 := by
    norm_num [sumOfProbabilities]
  have habs : |sumOfProbabilities [(0.5 : ℝ), 0.49] - 1| > 1e-9 := by
    rw [hs, show (0.99 : ℝ) - 1 = -0.01 by norm_num, abs_neg,
      abs_of_nonneg (by norm_num : (0 : ℝ) ≤ 0.01)]
    norm_num
  exact ⟨habs, entropy_error_on_sum_deviation _ habs⟩

/-- C7: on the reference distributions, `calculateEntropy` returns exactly
0 for [1.0], 1 bit for [0.5, 0.5] and 2 bits for [0.25, 0.25, 0.25, 0.25]. -/
theorem entropy_reference_values :
    calculateEntropy [(1 : ℝ)] = Except.ok (some 0) ∧
      calculateEntropy [(1/2 : ℝ), 1/2] = Except.ok (some 1) ∧
      calculateEntropy [(1/4 : ℝ), 1/4, 1/4, 1/4] = Except.ok (some 2) := by
  refine ⟨?_, ?_, ?_⟩
  · norm_num [calculateEntropy, sumOfProbabilities, entropyAccum, entropyTerm]
  · norm_num [calculateEntropy, sumOfProbabilities, entropyAccum, entropyTerm,
      logb_two_half]
  · norm_num [calculateEntropy, sumOfProbabilities, entropyAccum, entropyTerm,
      logb_two_quarter]

/-- C1: the source does not guard zero probabilities — on [1.0, 0.0] the sum
check passes, but the loop computes `0 * log2(0)`, i.e. `0 * (-inf) = NaN`,
so the returned entropy is not a number (modelled as `none`) instead of the
claimed well-defined value 0. -/
theorem entropy_nan_on_zero_probability :
    calculateEntropy [(1 : ℝ), 0] = Except.ok none := by
  norm_num [calculateEntropy, sumOfProbabilities, entropyAccum, entropyTerm]

/-- C2: the source compares the probability sum with 1 using exact equality,
so a distribution summing to 0.9999999998 — within any reasonable tolerance
of 1 — is rejected with `InvalidProbabilitySum` instead of being accepted. -/
theorem entropy_exact_sum_check_rejects_near_one :
    calculateEntropy [(0.9999999998 : ℝ)]
      = Except.error Id3Error.invalidSumOfProbabilities := by
  norm_num [calculateEntropy, sumOfProbabilities]

/-- Helper: summing the multiplicities of the distinct elements of a list
recovers its length. -/
theorem sum_count_toFinset {α : Type} [DecidableEq α] (l : List α) :
    ∑ a in l.toFinset, l.count a = l.length := by
  simpa using Multiset.toFinset_sum_count_eq (l : Multiset α)

/-- Helper: the per-value partition count is the multiplicity of the value in
the column of attribute values. -/
theorem countEntriesByAttribute_eq_count (data : List Row) (i : ℕ) (v : String) :
    countEntriesByAttribute data i v
      = (data.map (fun row => attributeValue row i)).count v := by
  rw [List.count_eq_countP, List.countP_map]
  simp only [countEntriesByAttribute, List.countP_eq_length_filter]
  rfl

/-- C8: for every non-empty dataset and attribute in the valid range, the
partition counts over all observed values of the attribute sum exactly to
the dataset's total row count. -/
theorem partition_counts_sum_to_total (data : List Row) (i : ℕ)
    (_hne : data ≠ []) (_hrange : i < numAttributes data) :
    ∑ v in getAllPossibleAttributeValues data i, countEntriesByAttribute data i v
      = data.length := by
  have key := sum_count_toFinset (data.map (fun row => attributeValue row i))
  rw [List.length_map] at key
  calc ∑ v in getAllPossibleAttributeValues data i, countEntriesByAttribute data i v
      = ∑ v in getAllPossibleAttributeValues data i,
          (data.map (fun row => attributeValue row i)).count v :=
        Finset.sum_congr rfl (fun v _ => countEntriesByAttribute_eq_count data i v)
    _ = data.length := key

/-- C8 witness: a two-row dataset with one attribute column; the two
partition counts of attribute 0 sum to the row count 2. -/
theorem partition_counts_sum_to_total_witness :
    ([["yes", "a"], ["no", "b"]] : List Row) ≠ [] ∧
      0 < numAttributes [["yes", "a"], ["no", "b"]] ∧
      ∑ v in getAllPossibleAttributeValues [["yes", "a"], ["no", "b"]] 0,
          countEntriesByAttribute [["yes", "a"], ["no", "b"]] 0 v = 2 := by
  refine ⟨by simp, by decide, ?_⟩
  have h := partition_counts_sum_to_total [["yes", "a"], ["no", "b"]] 0
    (by simp) (by decide)
  simpa using h

/-- Helper: in `List.range n` every element sits at the index equal to its
own value. -/
theorem indexOf_range {n m : ℕ} (h : m < n) :
    (List.range n).indexOf m = m := by
  have hmem : m ∈ List.range n := List.mem_range.mpr h
  have hlt : (List.range n).indexOf m < (List.range n).length :=
    List.indexOf_lt_length.mpr hmem
  have h1 := List.getElem_indexOf hlt
  have h2 := List.getElem_range ((List.range n).indexOf m) (by simpa using hlt)
  exact h2.symm.trans h1

/-- C3: for a non-empty dataset with at least one attribute column, the
selected attribute is a valid AttributeId whose information gain is maximal,
and every attribute attaining the same gain has an id at least as large —
the lowest id wins ties.  The selection is a pure function of the dataset,
hence identical across repeated calls. -/
theorem best_attribute_maximizes_gain_lowest_tie (data : List Row)
    (_hne : data ≠ []) (hattr : 1 ≤ numAttributes data) :
    getAttributeWithHighestInformationGain data < numAttributes data ∧
      (∀ a, a < numAttributes data →
        informationGain data a ≤ informationGain data (getAttributeWithHighestInformationGain data)) ∧
      (∀ a, a < numAttributes data →
        informationGain data (getAttributeWithHighestInformationGain data) ≤ informationGain data a →
        getAttributeWithHighestInformationGain data ≤ a) := by
  obtain ⟨m, hm⟩ : ∃ m, (List.range (numAttributes data)).argmax (informationGain data) = some m := by
    cases hcase : (List.range (numAttributes data)).argmax (informationGain data) with
    | none =>
        have : List.range (numAttributes data) = [] := List.argmax_eq_none.mp hcase
        rw [List.range_eq_nil] at this
        omega
    | some m => exact ⟨m, rfl⟩
  have hb : getAttributeWithHighestInformationGain data = m := by
    rw [getAttributeWithHighestInformationGain, hm]
    rfl
  have hmm : m ∈ (List.range (numAttributes data)).argmax (informationGain data) := by
    rw [hm]
    rfl
  have hmem : m < numAttributes data := List.mem_range.mp (List.argmax_mem hmm)
  rw [hb]
  refine ⟨hmem, ?_, ?_⟩
  · intro a ha
    exact List.le_of_mem_argmax (List.mem_range.mpr ha) hmm
  · intro a ha hle
    have hidx := List.index_of_argmax hmm (List.mem_range.mpr ha) hle
    rwa [indexOf_range hmem, indexOf_range ha] at hidx

/-- C3 witness: a one-row dataset with one attribute column satisfies the
preconditions, and attribute 0 is selected. -/
theorem best_attribute_maximizes_gain_lowest_tie_witness :
    ([["yes", "a"]] : List Row) ≠ [] ∧ 1 ≤ numAttributes [["yes", "a"]] ∧
      (getAttributeWithHighestInformationGain [["yes", "a"]] < numAttributes [["yes", "a"]] ∧
        (∀ a, a < numAttributes [["yes", "a"]] →
          informationGain [["yes", "a"]] a
            ≤ informationGain [["yes", "a"]] (getAttributeWithHighestInformationGain [["yes", "a"]])) ∧
        (∀ a, a < numAttributes [["yes", "a"]] →
          informationGain [["yes", "a"]] (getAttributeWithHighestInformationGain [["yes", "a"]])
              ≤ informationGain [["yes", "a"]] a →
          getAttributeWithHighestInformationGain [["yes", "a"]] ≤ a)) :=
  ⟨by simp, by decide,
    best_attribute_maximizes_gain_lowest_tie [["yes", "a"]] (by simp) (by decide)⟩

end Id3
